import Mathlib

/-!
Verification of the notion2anki sync engine.

This file gives a shallow embedding of the program's core: the record
extractor (`ExtractPropertiesFromPage`), the dwds_audio transform step
(`dwdsProcess`, `cleanAudioURL`, `isAudioURL`), the Anki sink gateway
wrappers (`EnsureDeckExists`, `CanAddNotes`, `AddNotesToDeck`), and the
per-cycle orchestration (`sync`, `isFatalError`, `StartFirstCycle`).
External HTTP calls are modelled as oracle values carried by `SyncWorld`;
everything the program computes itself is translated function by function.

Go strings are modelled as Lean `String` (lists of characters); Go byte
indexing never matters for the inputs considered here, which are ASCII.
Go maps are modelled as association lists with unique keys together with
`getF`/`setF`; iteration order of a Go map is unspecified, so the list
order is a determinization of it.
-/

/-! ## Go string helpers (strings package), executable on character lists -/

/-- Model of `strings.Contains`: `charsContains needle hay` is true when `needle`
occurs as a contiguous run in `hay`. -/
def charsContains (needle : List Char) : List Char → Bool
  | [] => needle.isEmpty
  | c :: t => needle.isPrefixOf (c :: t) || charsContains needle t

/-- Fuel-driven body of `strings.ReplaceAll` for a non-empty pattern.
Each step consumes at least one character, so `hay.length` fuel always
suffices and the fuel never runs out on the recursive path. -/
def replaceAllAux (needle repl : List Char) : Nat → List Char → List Char
  | 0, hay => hay
  | _ + 1, [] => []
  | fuel + 1, c :: t =>
    if needle.isPrefixOf (c :: t) then
      repl ++ replaceAllAux needle repl fuel ((c :: t).drop needle.length)
    else
      c :: replaceAllAux needle repl fuel t

/-- Model of `strings.ReplaceAll` (all occurrences, left to right, non-overlapping).
The program only ever calls it with non-empty patterns. -/
def charsReplaceAll (hay needle repl : List Char) : List Char :=
  if needle.isEmpty then hay else replaceAllAux needle repl hay.length hay

/-- Fuel-driven body of `strings.Split` for a non-empty separator. -/
def splitOnAux (sep : List Char) : Nat → List Char → List Char → List (List Char)
  | 0, acc, hay => [acc.reverse ++ hay]
  | _ + 1, acc, [] => [acc.reverse]
  | fuel + 1, acc, c :: t =>
    if sep.isPrefixOf (c :: t) then
      acc.reverse :: splitOnAux sep fuel [] ((c :: t).drop sep.length)
    else
      splitOnAux sep fuel (c :: acc) t

/-- Model of `strings.Split` with a non-empty separator. -/
def charsSplitOn (hay sep : List Char) : List (List Char) :=
  if sep.isEmpty then [hay] else splitOnAux sep hay.length [] hay

/-- Trim characters satisfying `p` from both ends (shape of `strings.Trim`). -/
def charsTrim (p : Char → Bool) (s : List Char) : List Char :=
  ((s.dropWhile p).reverse.dropWhile p).reverse

/-- Model of `strings.Contains` on strings. -/
def goContains (s sub : String) : Bool := charsContains sub.data s.data

/-- Model of `strings.HasPrefix` on strings. -/
def goStartsWith (s pre : String) : Bool := pre.data.isPrefixOf s.data

/-- Model of `strings.ReplaceAll` on strings. -/
def goReplaceAll (s old new : String) : String :=
  String.mk (charsReplaceAll s.data old.data new.data)

/-- Model of `strings.ToLower`; the program only feeds it ASCII URLs, for which
Go's Unicode lowering and `Char.toLower` agree. -/
def goToLower (s : String) : String := String.mk (s.data.map Char.toLower)

/-- Model of `strings.TrimSpace`; the program only trims ASCII whitespace here. -/
def goTrimSpace (s : String) : String :=
  String.mk (charsTrim Char.isWhitespace s.data)

/-- The double-quote and single-quote characters trimmed by
`strings.Trim(url, "\x22'")` in `cleanAudioURL`. -/
def isQuoteChar (c : Char) : Bool := c == Char.ofNat 34 || c == Char.ofNat 39

/-- Model of the `strings.Trim` call of `cleanAudioURL`, which trims the two quote characters. -/
def goTrimQuotes (s : String) : String := String.mk (charsTrim isQuoteChar s.data)

/-- Model of `strings.Split` on strings. -/
def goSplitOn (s sep : String) : List String :=
  (charsSplitOn s.data sep.data).map String.mk

/-- Model of `strings.Join` with a separator. -/
def goJoin : List String → String → String
  | [], _ => ""
  | [x], _ => x
  | x :: y :: t, sep => x ++ sep ++ goJoin (y :: t) sep

/-! ## Field mappings (Go `map[string]string`) -/

/-- The working field-name to value mapping passed through the pipeline. -/
abbrev FieldMap := List (String × String)

/-- Go map read: `v, ok := m[k]`. -/
def getF : FieldMap → String → Option String
  | [], _ => none
  | p :: rest, k => if p.1 == k then some p.2 else getF rest k

/-- Go map read with zero value: `m[k]` in value position. -/
def getD (m : FieldMap) (k : String) : String := (getF m k).getD ""

/-- Go map write: `m[k] = v` (replace if present, append otherwise). -/
def setF : FieldMap → String → String → FieldMap
  | [], k, v => [(k, v)]
  | p :: rest, k, v => if p.1 == k then (k, v) :: rest else p :: setF rest k v

theorem getF_setF_self (m : FieldMap) (k v : String) :
    getF (setF m k v) k = some v := by
  induction m with
  | nil => simp [setF, getF]
  | cons p rest ih =>
    by_cases h : p.1 = k
    · simp [setF, getF, h]
    · simp only [setF, getF, beq_iff_eq, h, if_false, ih]

theorem getF_setF_ne (m : FieldMap) (k v k' : String) (h : k' ≠ k) :
    getF (setF m k v) k' = getF m k' := by
  have hk : (k == k') = false := by simp [Ne.symm h]
  induction m with
  | nil => simp [setF, getF, hk]
  | cons p rest ih =>
    by_cases hp : p.1 = k
    · have hp' : (p.1 == k') = false := by simp [hp, Ne.symm h]
      simp [setF, getF, hp, hk, hp', ih]
    · simp [setF, getF, hp, ih]

/-! ## Typed source records (go-notion `DatabasePageProperties`) -/

/-- One typed Notion property, restricted to the cases handled by the
switch in `ExtractPropertiesFromPage`; `other` stands for every property
type that switch does not mention. For title and rich text only the
`PlainText` of each element matters to the program, so an element is its
plain text; for select/multi-select only the option `Name` matters. -/
inductive DBProp where
  | title (texts : List String)
  | richText (texts : List String)
  | select (opt : Option String)
  | multiSelect (opts : List String)
  | url (u : Option String)
  | other
deriving DecidableEq

/-- The typed property map of a page (`notion.DatabasePageProperties`). -/
abbrev TypedProps := List (String × DBProp)

/-- One source record: a `notion.Page` as the program consumes it. The
timestamp is the page's last-edited time (an integer number of
nanoseconds, as Go's `time.Time` counts). -/
structure Page where
  id : String
  lastEditedTime : Int
  properties : TypedProps
deriving DecidableEq

/-! ## Record extractor (`ExtractPropertiesFromPage`, notion.go:131-188) -/

/-- One iteration of the extractor's property switch: fold `prop` named
`name` into the accumulated mapping exactly as the Go switch does. -/
def extractProp (acc : FieldMap) (name : String) (prop : DBProp) : FieldMap :=
  match prop with
  | .title texts =>
    match texts with
    | [] => setF acc name "-"
    | t :: _ => if t != "" then setF acc name t else acc
  | .url u =>
    match u with
    | some s => if s != "" then setF acc name s else setF acc name "-"
    | none => setF acc name "-"
  | .select o =>
    match o with
    | some s => if s != "" then setF acc name s else setF acc name "-"
    | none => setF acc name "-"
  | .multiSelect opts =>
    let vals := opts.filter (fun s => s != "")
    if vals.length > 0 then setF acc name (goJoin vals ", ") else setF acc name "-"
  | .richText texts =>
    let vals := texts.filter (fun s => s != "")
    if vals.length > 0 then setF acc name (goJoin vals ", ") else setF acc name "-"
  | .other => acc

/-- Model of `ExtractPropertiesFromPage` (notion.go:131-188): flatten every typed property of the page
into the string mapping, starting from the empty map. -/
def ExtractPropertiesFromPage (page : Page) : FieldMap :=
  page.properties.foldl (fun acc p => extractProp acc p.1 p.2) []

/-- The per-property flattening rule the code actually implements, as the
amended claim states it: `some v` means the property appears with value
`v`, `none` means the extractor leaves no entry for it at all. -/
def flattenedValue : DBProp → Option String
  | .title [] => some "-"
  | .title (t :: _) => if t != "" then some t else none
  | .url (some s) => if s != "" then some s else some "-"
  | .url none => some "-"
  | .select (some s) => if s != "" then some s else some "-"
  | .select none => some "-"
  | .multiSelect opts =>
    let vals := opts.filter (fun s => s != "")
    if vals.length > 0 then some (goJoin vals ", ") else some "-"
  | .richText texts =>
    let vals := texts.filter (fun s => s != "")
    if vals.length > 0 then some (goJoin vals ", ") else some "-"
  | .other => none

theorem extractProp_getF_self (acc : FieldMap) (name : String) (prop : DBProp) :
    getF (extractProp acc name prop) name =
      ((flattenedValue prop).map some).getD (getF acc name) := by
  cases prop with
  | title texts =>
    cases texts with
    | nil => simp [extractProp, flattenedValue, getF_setF_self]
    | cons t rest =>
      by_cases h : t = ""
      · simp [extractProp, flattenedValue, h]
      · simp [extractProp, flattenedValue, h, getF_setF_self]
  | richText texts =>
    simp only [extractProp, flattenedValue]
    split <;> simp [getF_setF_self]
  | select o =>
    cases o with
    | none => simp [extractProp, flattenedValue, getF_setF_self]
    | some s =>
      by_cases h : s = "" <;> simp [extractProp, flattenedValue, h, getF_setF_self]
  | multiSelect opts =>
    simp only [extractProp, flattenedValue]
    split <;> simp [getF_setF_self]
  | url u =>
    cases u with
    | none => simp [extractProp, flattenedValue, getF_setF_self]
    | some s =>
      by_cases h : s = "" <;> simp [extractProp, flattenedValue, h, getF_setF_self]
  | other => simp [extractProp, flattenedValue]

theorem extractProp_getF_ne (acc : FieldMap) (k name : String) (prop : DBProp)
    (h : name ≠ k) :
    getF (extractProp acc k prop) name = getF acc name := by
  cases prop with
  | title texts =>
    cases texts with
    | nil => simp [extractProp, getF_setF_ne _ _ _ _ h]
    | cons t rest =>
      by_cases ht : t = "" <;> simp [extractProp, ht, getF_setF_ne _ _ _ _ h]
  | richText texts =>
    simp only [extractProp]
    split <;> simp [getF_setF_ne _ _ _ _ h]
  | select o =>
    cases o with
    | none => simp [extractProp, getF_setF_ne _ _ _ _ h]
    | some s =>
      by_cases hs : s = "" <;> simp [extractProp, hs, getF_setF_ne _ _ _ _ h]
  | multiSelect opts =>
    simp only [extractProp]
    split <;> simp [getF_setF_ne _ _ _ _ h]
  | url u =>
    cases u with
    | none => simp [extractProp, getF_setF_ne _ _ _ _ h]
    | some s =>
      by_cases hs : s = "" <;> simp [extractProp, hs, getF_setF_ne _ _ _ _ h]
  | other => simp [extractProp]

theorem extractFold_not_mem (name : String) :
    ∀ (l : TypedProps) (acc : FieldMap), (∀ q ∈ l, q.1 ≠ name) →
      getF (l.foldl (fun acc p => extractProp acc p.1 p.2) acc) name = getF acc name := by
  intro l
  induction l with
  | nil => intro acc _; rfl
  | cons q rest ih =>
    intro acc h
    simp only [List.foldl_cons]
    rw [ih _ (fun p hp => h p (List.mem_cons_of_mem q hp))]
    exact extractProp_getF_ne acc q.1 name q.2
      (fun he => h q (List.mem_cons_self q rest) he.symm)

theorem extractFold_mem (name : String) (prop : DBProp) :
    ∀ (l : TypedProps) (acc : FieldMap),
      (l.map Prod.fst).Nodup → getF acc name = none → (name, prop) ∈ l →
      getF (l.foldl (fun acc p => extractProp acc p.1 p.2) acc) name =
        flattenedValue prop := by
  intro l
  induction l with
  | nil => intro acc _ _ hmem; cases hmem
  | cons q rest ih =>
    intro acc hnd hacc hmem
    have hnd' := hnd
    rw [List.map_cons, List.nodup_cons] at hnd'
    obtain ⟨hq_not, hrest_nd⟩ := hnd'
    rcases List.mem_cons.mp hmem with heq | hmem'
    · subst heq
      simp only [List.foldl_cons]
      rw [extractFold_not_mem name rest _ ?later]
      · rw [extractProp_getF_self]
        cases hval : flattenedValue prop with
        | none => simp [hacc]
        | some v => simp
      case later =>
        intro p hp hpn
        have h1 : p.1 ∈ rest.map Prod.fst := List.mem_map_of_mem Prod.fst hp
        rw [hpn] at h1
        exact hq_not h1
    · have hqn : q.1 ≠ name := by
        intro hq
        have h1 : name ∈ rest.map Prod.fst := List.mem_map_of_mem Prod.fst hmem'
        exact hq_not (by rw [hq]; exact h1)
      simp only [List.foldl_cons]
      exact ih _ hrest_nd
        (by rw [extractProp_getF_ne acc q.1 name q.2 (fun he => hqn he.symm)]; exact hacc)
        hmem'

/-! ## Transform step framework and the dwds_audio processor
(processors/processors.go) -/

/-- One configured pipeline step (`processors.ProcessorConfig`); the
free-form `config` options map is never read by the code, so it is not
modelled. -/
structure ProcessorConfig where
  name : String
  enabled : Bool
  targetField : String
  sourceField : String
deriving DecidableEq

/-- The value `GetAudioURL` builds from the scraped page. -/
structure AudioInfo where
  url : String
  format : String
  found : Bool
  errorMsg : String
deriving DecidableEq

/-- Model of `DWDSAudioProcessor.Process` (processors.go:48-69). The remote
lookup chain `GetAudioURL` (HTTP fetch plus goquery scrape) is an
external collaborator and is passed in as the oracle `lookup`; an
`Except.error` is the `err != nil` case, which the code logs and then
returns nil on. The result pairs the (possibly mutated) mapping with
`Process`'s returned error. -/
def dwdsProcess (lookup : String → Except String AudioInfo)
    (noteData : FieldMap) (config : ProcessorConfig) : FieldMap × Option String :=
  if config.sourceField == "" || config.targetField == "" then
    (noteData, some "dwds_audio processor requires source_field and target_field in its config")
  else
    match getF noteData config.sourceField with
    | none => (noteData, none)
    | some source =>
      if source == "" then (noteData, none)
      else
        match lookup source with
        | .error _ => (noteData, none)
        | .ok audioInfo =>
          if audioInfo.found then (setF noteData config.targetField audioInfo.url, none)
          else (noteData, none)

/-- The dwds site base URL (processors.go:34). -/
def baseURL : String := "https://www.dwds.de"

/-- Extension substrings checked by `isAudioURL` (processors.go:200). -/
def audioExtensions : List String := [".mp3", ".ogg", ".wav", ".m4a", ".aac"]

/-- Keyword substrings checked by `isAudioURL` (processors.go:207). -/
def audioPaths : List String := ["audio", "sound", "pronunciation", "media", "mp3"]

/-- Model of `isAudioURL` (processors.go:193-215): substring checks over the whole
lowercased URL. -/
def isAudioURL (url : String) : Bool :=
  if url == "" then false
  else
    audioExtensions.any (fun ext => goContains (goToLower url) ext) ||
      audioPaths.any (fun p => goContains (goToLower url) p)

/-- The entity unescaping and trimming prelude of `cleanAudioURL`
(processors.go:167-172). -/
def normalizeAudioRef (rawURL : String) : String :=
  goTrimQuotes (goTrimSpace
    (goReplaceAll (goReplaceAll (goReplaceAll rawURL "&amp;" "&") "&#x2F;" "/") "&#47;" "/"))

/-- The base-URL resolution chain of `cleanAudioURL`
(processors.go:174-184); `none` is the early `return ""` of the final
else branch. The `"//"` branch is kept although it is unreachable (any
such string already matched the `"/"` branch), faithfully to the
source. -/
def resolveAudioRef (rawURL : String) : Option String :=
  if !(goStartsWith (normalizeAudioRef rawURL) "http") then
    if goStartsWith (normalizeAudioRef rawURL) "/" then
      some (baseURL ++ normalizeAudioRef rawURL)
    else if goStartsWith (normalizeAudioRef rawURL) "//" then
      some ("https:" ++ normalizeAudioRef rawURL)
    else if normalizeAudioRef rawURL != "" &&
        !(goContains (normalizeAudioRef rawURL) "javascript:") then
      some (baseURL ++ "/" ++ normalizeAudioRef rawURL)
    else none
  else some (normalizeAudioRef rawURL)

/-- Model of `cleanAudioURL` (processors.go:166-191): resolve, then keep the URL
only when `isAudioURL` accepts it. -/
def cleanAudioURL (rawURL : String) : String :=
  match resolveAudioRef rawURL with
  | none => ""
  | some url => if !(isAudioURL url) then "" else url

/-- Stated from the claim's words, for comparison with `isAudioURL`: the
path component of a URL (what follows the host, query stripped). -/
def urlPathOf (url : String) : String :=
  let rest :=
    match charsSplitOn url.data "://".data with
    | _ :: r :: _ => r
    | _ => url.data
  String.mk ((rest.dropWhile (fun c => c != '/')).takeWhile (fun c => c != '?'))

/-- Stated from the claim's words: the file extension of a path,
dot included (empty when the path has no dot). -/
def pathExtensionOf (path : String) : String :=
  let segs := charsSplitOn path.data ['.']
  if segs.length ≤ 1 then "" else String.mk ('.' :: segs.getLastD [])

/-- Stated from the claim's words (C9), for comparison with the code's
`isAudioURL`: accept when the file extension is one of the audio
extensions, or the path contains one of the keywords. -/
def claimIsAudioURL (url : String) : Bool :=
  audioExtensions.contains (goToLower (pathExtensionOf (urlPathOf url))) ||
    audioPaths.any (fun k => goContains (goToLower (urlPathOf url)) k)

/-! ## Error values and their fatality classification -/

/-- The Go error values the cycle can return. The first three are the
sentinel errors matched by `errors.Is` in `isFatalError`;
`noDeckName`/`noModelName` are the fresh `fmt.Errorf` values of
anki.go:104/164 and anki.go:207, which match no sentinel; `transient`
wraps source-query failures and `other` every remaining `fmt.Errorf`. -/
inductive GoError where
  | ankiConnectFailed
  | notionAuthFailed
  | notionDBNotFound
  | noDeckName
  | noModelName
  | transient (msg : String)
  | other (msg : String)
deriving DecidableEq

/-- Model of `isFatalError` (notion.go:352-357): `errors.Is` against the three
sentinels only. -/
def isFatalError : GoError → Bool
  | .ankiConnectFailed => true
  | .notionAuthFailed => true
  | .notionDBNotFound => true
  | _ => false

/-! ## Sink gateway (anki.go) -/

/-- Model of `CheckAnkiConnect` (anki.go:82-100). The oracle is the outcome of
`makeJSONRequest` for the version probe: `Except.error` is a transport
failure, `Except.ok r` a decoded response whose `Error` field is `r`. -/
def CheckAnkiConnect (call : Except String (Option String)) : Except GoError Unit :=
  match call with
  | .error _ => .error .ankiConnectFailed
  | .ok (some e) => .error (.other ("AnkiConnect check error: " ++ e))
  | .ok none => .ok ()

/-- Model of `CreateDeck` (anki.go:102-127); the oracle collapses the transport
failure, the response `Error` field and the response-shape check of
`makeJSONRequest` into one error message. -/
def CreateDeck (deckName : String) (call : Except String Unit) : Except GoError Unit :=
  if deckName == "" then .error .noDeckName
  else
    match call with
    | .error m => .error (.other ("fail to create deck: " ++ m))
    | .ok _ => .ok ()

/-- Model of `EnsureDeckExists` (anki.go:129-165): list decks, create on absence;
an empty configured deck name is the fresh "no deck name provided"
error. -/
def EnsureDeckExists (deckName : String) (listCall : Except String (List String))
    (createCall : Except String Unit) : Except GoError Unit :=
  if deckName != "" then
    match listCall with
    | .error m => .error (.other ("fail to check existing decks: " ++ m))
    | .ok names =>
      if names.contains deckName then .ok ()
      else CreateDeck deckName createCall
  else .error .noDeckName

/-- Model of `createModel` (anki.go:205-237). -/
def createModel (modelName : String) (fields : List String)
    (call : Except String Unit) : Except GoError Unit :=
  if modelName == "" then .error .noModelName
  else
    match call with
    | .error m => .error (.other ("fail to create model: " ++ m))
    | .ok _ => .ok ()

/-- Model of `EnsureModelExists` (anki.go:167-203): list models, create on absence
with the field names of the observed typed properties. -/
def EnsureModelExists (modelName : String) (listCall : Except String (List String))
    (createCall : Except String Unit) (pageProperties : TypedProps) : Except GoError Unit :=
  match listCall with
  | .error m => .error (.other ("fail to check existing models: " ++ m))
  | .ok names =>
    if names.contains modelName then .ok ()
    else createModel modelName (pageProperties.map Prod.fst) createCall

/-- Model of `CanAddNotes` (anki.go:272-315). The oracle returns the decoded
boolean indicator list for the single queried note (or the transport or
response error); the function takes the first indicator and treats an
empty list as an error, as the Go does. -/
def CanAddNotes (call : FieldMap → Except String (List Bool)) (fields : FieldMap) :
    Except GoError Bool :=
  match call fields with
  | .error m => .error (.other m)
  | .ok [] => .error (.other "no indicators returned")
  | .ok (b :: _) => .ok b

/-- Model of `AddNotesToDeck` (anki.go:239-270): both a transport failure and a
response-level error are logged and then discarded; the function returns
nil on every path. -/
def AddNotesToDeck (call : Except String (Option String)) : Except String Unit :=
  match call with
  | .error _ => .ok ()
  | .ok (some _) => .ok ()
  | .ok none => .ok ()

/-! ## Source-store query and write-back (notion.go) -/

/-- Outcome of the remote query chain behind `QueryAllPages`: an API
error with its HTTP status, some other transport error, or the
concatenation of all result pages (pagination is resolved inside
`QueryAllPages`, which the oracle collapses). -/
inductive NotionQueryResult where
  | apiError (status : Nat)
  | otherError (msg : String)
  | ok (pages : List Page)

/-- First page's typed properties, as `QueryAllPages` extracts them
(notion.go:120-126). -/
def firstPageProps : List Page → TypedProps
  | [] => []
  | p :: _ => p.properties

/-- Model of `QueryAllPages` composed with `QueryNotionDatabase`'s error
classification (notion.go:67-129): HTTP 401 becomes the auth sentinel,
HTTP 404 the database-not-found sentinel, anything else a wrapped
transient error; on success the pages plus the first page's typed
properties. -/
def QueryAllPagesM (q : NotionQueryResult) : Except GoError (List Page × TypedProps) :=
  match q with
  | .apiError 401 => .error .notionAuthFailed
  | .apiError 404 => .error .notionDBNotFound
  | .apiError _ => .error (.transient "failed to query Notion database")
  | .otherError m => .error (.transient m)
  | .ok pages => .ok (pages, firstPageProps pages)

/-- A typed property value as `UpdatePageOfDatabase` writes it back. -/
inductive UpdateProp where
  | title (texts : List String)
  | richText (texts : List String)
  | select (name : String)
  | multiSelect (names : List String)
  | url (u : String)
  | empty
deriving DecidableEq

/-- Typed-property lookup used to pick the write-back representation. -/
def lookupTyped : TypedProps → String → Option DBProp
  | [], _ => none
  | p :: rest, k => if p.1 == k then some p.2 else lookupTyped rest k

/-- The switch of `UpdatePageOfDatabase` (notion.go:198-212): build the
typed value to write for one field. A name absent from `pageProperties`
(Go: zero-value property, empty `Type`) and a property of an unhandled
type both produce the empty property. -/
def buildUpdateProp (ty : Option DBProp) (value : String) : UpdateProp :=
  match ty with
  | some (.title _) => .title [value]
  | some (.richText _) => .richText [value]
  | some (.select _) => .select value
  | some (.multiSelect _) => .multiSelect (goSplitOn value ", ")
  | some (.url _) => .url value
  | some .other => .empty
  | none => .empty

/-- The parameter map `UpdatePageOfDatabase` (notion.go:190-219) sends to
the source store for a given props map; the remote call itself is an
external collaborator whose failure the sync loop only logs. -/
def updatePageParams (props : FieldMap) (pageProperties : TypedProps) :
    List (String × UpdateProp) :=
  props.map (fun p => (p.1, buildUpdateProp (lookupTyped pageProperties p.1) p.2))

/-! ## Cursor initialisation and query window (notion.go:48-100) -/

/-- One hour in nanoseconds, Go's `time.Hour`. -/
def hourNs : Int := 3600 * 1000000000

/-- Value of the `LastSyncTime` that `NewNotion` installs (notion.go:62):
`time.Now().Add(-100 * time.Hour)`. -/
def initialLastSyncTime (startupTime : Int) : Int := startupTime - 100 * hourNs

/-- Modelled from the spec: the server-side semantics of the filter
`QueryNotionDatabase` builds (last-edited-time strictly After `since`,
notion.go:70-77); the Notion server that applies it is an external
collaborator, specified in spec section 4.2 as "filtered server-side by
last-modified after `since`". -/
def queryFilter (db : List Page) (since : Int) : List Page :=
  db.filter (fun p => since < p.lastEditedTime)

/-! ## The sync cycle (notion.go:243-395) -/

/-- The process-wide processor registry after `init` ran: exactly the
dwds_audio processor is registered (notion.go:380-382). -/
def processorRegistry : List String := ["dwds_audio"]

/-- The outcomes of external calls a cycle can make, fixed up front; the
cycle issues every call synchronously and nothing mutates between them. -/
structure SyncWorld where
  ankiVersionCall : Except String (Option String)
  notionQuery : NotionQueryResult
  deckNamesCall : Except String (List String)
  createDeckCall : Except String Unit
  modelNamesCall : Except String (List String)
  createModelCall : Except String Unit
  canAddCall : FieldMap → Except String (List Bool)
  dwdsLookup : String → Except String AudioInfo
  addNotesCall : Except String (Option String)

/-- The configuration fields `sync` consumes. -/
structure Config where
  deckName : String
  modelName : String
  processors : List ProcessorConfig

/-- Observable remote side effects of the per-record loop and the insert,
in issue order. -/
inductive Effect where
  | transformInvoked (pageId procName : String)
  | writeBack (pageId : String) (params : List (String × UpdateProp))
  | bulkInsert (notes : List FieldMap)
deriving DecidableEq

/-- One iteration of the inner step loop (notion.go:319-335) on one
record. `none` models the Go runtime panic: when the configured name is
not in the registry the code logs "not found, skipping" but has no
`continue`, so `processor.Process` is invoked on the nil interface and
the process crashes with a nil-pointer dereference. Otherwise the only
registered processor (dwds_audio) runs; its returned error is logged
only, and the write-back of the step's target field (read from the
mapping after `Process` ran, the empty string when absent) is issued
unconditionally, its own error also logged only. -/
def runStep (w : SyncWorld) (pageProperties : TypedProps) (page : Page)
    (props : FieldMap) (pc : ProcessorConfig) : Option (FieldMap × List Effect) :=
  if !pc.enabled then some (props, [])
  else if !(processorRegistry.contains pc.name) then none
  else
    some ((dwdsProcess w.dwdsLookup props pc).1,
      [Effect.transformInvoked page.id pc.name,
       Effect.writeBack page.id (updatePageParams
         [(pc.targetField, getD (dwdsProcess w.dwdsLookup props pc).1 pc.targetField)]
         pageProperties)])

/-- The full step loop over the configured steps, threading the mapping
and short-circuiting on the nil-processor panic. -/
def runSteps (w : SyncWorld) (pageProperties : TypedProps) (page : Page) :
    FieldMap → List ProcessorConfig → Option (FieldMap × List Effect)
  | props, [] => some (props, [])
  | props, pc :: rest =>
    match runStep w pageProperties page props pc with
    | none => none
    | some (props', effs) =>
      match runSteps w pageProperties page props' rest with
      | none => none
      | some (props'', effs') => some (props'', effs ++ effs')

/-- One iteration of the record loop (notion.go:305-337): extract, ask
the dedup gate, and on a green light run the steps and append the
(possibly transformed) mapping to the pending batch. A dedup-check error
and a "cannot be added" verdict both skip the record with nothing run. -/
def processPage (w : SyncWorld) (pcs : List ProcessorConfig)
    (pageProperties : TypedProps) (page : Page)
    (batch : List FieldMap) (effs : List Effect) : Option (List FieldMap × List Effect) :=
  match CanAddNotes w.canAddCall (ExtractPropertiesFromPage page) with
  | .error _ => some (batch, effs)
  | .ok false => some (batch, effs)
  | .ok true =>
    match runSteps w pageProperties page (ExtractPropertiesFromPage page) pcs with
    | none => none
    | some (props', newEffs) => some (batch ++ [props'], effs ++ newEffs)

/-- The record loop over all fetched pages. -/
def processAll (w : SyncWorld) (pcs : List ProcessorConfig)
    (pageProperties : TypedProps) :
    List Page → List FieldMap → List Effect → Option (List FieldMap × List Effect)
  | [], batch, effs => some (batch, effs)
  | page :: rest, batch, effs =>
    match processPage w pcs pageProperties page batch effs with
    | none => none
    | some (batch', effs') => processAll w pcs pageProperties rest batch' effs'

/-- How a cycle ended: a normal return, an error return, or the Go
runtime panic of the nil-processor dereference. -/
inductive SyncResult where
  | ok
  | err (e : GoError)
  | panicked
deriving DecidableEq

/-- The observable outcome of one `sync` call: how it ended, the
`LastSyncTime` it leaves behind, the batch handed to the insert, and the
remote side effects issued. -/
structure CycleResult where
  outcome : SyncResult
  lastSyncTime : Int
  batch : List FieldMap
  effects : List Effect
deriving DecidableEq

/-- Model of `sync` (notion.go:282-351). `lastSyncTime` is the cursor on entry and
`now` the value `time.Now()` yields at the cycle's end (line 348). Every
error return leaves the cursor untouched; reaching the end sets it to
`now` unconditionally — `AddNotesToDeck` returns nil on every path and
its call-site only logs, so a failed insert cannot prevent that. -/
def sync (w : SyncWorld) (cfg : Config) (lastSyncTime now : Int) : CycleResult :=
  match CheckAnkiConnect w.ankiVersionCall with
  | .error e => ⟨.err e, lastSyncTime, [], []⟩
  | .ok _ =>
    match QueryAllPagesM w.notionQuery with
    | .error e => ⟨.err e, lastSyncTime, [], []⟩
    | .ok (pages, pageProperties) =>
      match EnsureDeckExists cfg.deckName w.deckNamesCall w.createDeckCall with
      | .error e => ⟨.err e, lastSyncTime, [], []⟩
      | .ok _ =>
        match EnsureModelExists cfg.modelName w.modelNamesCall w.createModelCall
            pageProperties with
        | .error e => ⟨.err e, lastSyncTime, [], []⟩
        | .ok _ =>
          match processAll w cfg.processors pageProperties pages [] [] with
          | none => ⟨.panicked, lastSyncTime, [], []⟩
          | some (batch, effs) =>
            if batch.length > 0 then
              match AddNotesToDeck w.addNotesCall with
              | .error _ => ⟨.ok, now, batch, effs ++ [.bulkInsert batch]⟩
              | .ok _ => ⟨.ok, now, batch, effs ++ [.bulkInsert batch]⟩
            else
              ⟨.ok, now, batch, effs⟩

/-- How `Start` (notion.go:359-378) reacts to the first cycle:
`log.Fatalf` (non-zero exit) when `isFatalError` holds of the returned
error, a crash when the cycle panicked, and otherwise the ticker loop is
entered with the cursor the cycle left behind. -/
inductive FirstCycleOutcome where
  | terminated (e : GoError)
  | crashed
  | continued (lastSync : Int)
deriving DecidableEq

/-- The first-cycle decision of `Start`. -/
def StartFirstCycle (w : SyncWorld) (cfg : Config) (t0 now : Int) : FirstCycleOutcome :=
  match (sync w cfg t0 now).outcome with
  | .ok => .continued (sync w cfg t0 now).lastSyncTime
  | .err e =>
    if isFatalError e then .terminated e
    else .continued (sync w cfg t0 now).lastSyncTime
  | .panicked => .crashed

/-! ## Concrete fixtures used by counterexamples and witnesses -/

/-- A record whose only property is a title field `Word` = "Haus". -/
def pageH : Page := ⟨"p1", 0, [("Word", DBProp.title ["Haus"])]⟩

/-- A lookup oracle on which every remote pronunciation fetch fails,
as `GetAudioURL` fails on an HTTP 500. -/
def lookupFail : String → Except String AudioInfo :=
  fun _ => .error "HTTP status code: 500"

/-- A world where every sink and source call succeeds, the query returns
the single record `pageH`, the dedup gate approves it, and the dwds
lookup fails with an HTTP 500. -/
def okWorld : SyncWorld :=
  ⟨.ok none, .ok [pageH], .ok ["Deck"], .ok (), .ok ["Model"], .ok (),
   fun _ => .ok [true], lookupFail, .ok none⟩

/-- The world `okWorld` with a dedup gate that reports a duplicate. -/
def dupWorld : SyncWorld :=
  ⟨.ok none, .ok [pageH], .ok ["Deck"], .ok (), .ok ["Model"], .ok (),
   fun _ => .ok [false], lookupFail, .ok none⟩

/-- The registered dwds_audio step reading `Word` and writing `Audio`. -/
def pcDwds : ProcessorConfig := ⟨"dwds_audio", true, "Audio", "Word"⟩

/-- A configuration with no transform steps. -/
def cfgBase : Config := ⟨"Deck", "Model", []⟩

/-- A configuration whose single enabled step name is not registered. -/
def cfgC1 : Config := ⟨"Deck", "Model", [⟨"no_such_processor", true, "Audio", "Word"⟩]⟩

/-- A configuration with the single dwds_audio step. -/
def cfgC4 : Config := ⟨"Deck", "Model", [pcDwds]⟩

/-- A configuration with an empty deck name. -/
def cfgC5 : Config := ⟨"", "Model", []⟩

/-! ## Cursor behaviour of a cycle -/

/-- The cursor after a cycle is `now` exactly on the normal-return path
and the entry value on every other path. -/
theorem sync_cursor (w : SyncWorld) (cfg : Config) (t0 now : Int) :
    (sync w cfg t0 now).lastSyncTime =
      (if (sync w cfg t0 now).outcome = SyncResult.ok then now else t0) := by
  unfold sync
  repeat' split
  all_goals simp_all

/-! ## Claim theorems -/

/-- Claim C1 (code_bug): the claim says an unresolved step name is
logged and skipped, never crashing the cycle. The code logs but lacks a
`continue` and then calls `Process` on the nil interface: on a world
where everything else succeeds and one enabled step has an unregistered
name, the cycle panics (crashing the process) and the cursor is left at
its entry value. -/
theorem C1_nil_processor_panics :
    (sync okWorld cfgC1 0 1).outcome = SyncResult.panicked ∧
      (sync okWorld cfgC1 0 1).lastSyncTime = 0 := by decide

/-- Claim C2 (confirmed): with wall time monotone across the cycle, a
cycle that reaches its normal return advances the cursor to `now` (hence
to a value at least its entry value) whatever recoverable failures the
world held, and a cycle that returns an error — connectivity probe,
source query (fatal or transient), deck or model ensure — leaves the
cursor byte-for-byte unchanged. -/
theorem C2_cursor_monotone (w : SyncWorld) (cfg : Config) (t0 now : Int)
    (h : t0 ≤ now) :
    ((sync w cfg t0 now).outcome = SyncResult.ok →
      (sync w cfg t0 now).lastSyncTime = now ∧ t0 ≤ (sync w cfg t0 now).lastSyncTime) ∧
    (∀ e, (sync w cfg t0 now).outcome = SyncResult.err e →
      (sync w cfg t0 now).lastSyncTime = t0) := by
  have hc := sync_cursor w cfg t0 now
  constructor
  · intro hok
    rw [hc, if_pos hok]
    exact ⟨rfl, h⟩
  · intro e he
    rw [hc, if_neg]
    rw [he]
    simp

theorem C2_witness :
    ((sync okWorld cfgC4 0 1).outcome = SyncResult.ok →
      (sync okWorld cfgC4 0 1).lastSyncTime = 1 ∧
        (0 : Int) ≤ (sync okWorld cfgC4 0 1).lastSyncTime) ∧
    (∀ e, (sync okWorld cfgC4 0 1).outcome = SyncResult.err e →
      (sync okWorld cfgC4 0 1).lastSyncTime = 0) :=
  C2_cursor_monotone okWorld cfgC4 0 1 (by decide)

/-- Claim C3 (confirmed): a record for which the dedup gate `CanAddNotes`
answers "cannot be added" is skipped whole: the record loop iteration
returns with no transform invoked, no write-back issued, and the pending
batch unchanged. -/
theorem C3_duplicate_skipped (w : SyncWorld) (pcs : List ProcessorConfig)
    (pageProperties : TypedProps) (page : Page) (batch : List FieldMap)
    (effs : List Effect)
    (h : CanAddNotes w.canAddCall (ExtractPropertiesFromPage page) = Except.ok false) :
    processPage w pcs pageProperties page batch effs = some (batch, effs) := by
  unfold processPage
  rw [h]

theorem C3_witness :
    processPage dupWorld [pcDwds] pageH.properties pageH [] [] = some ([], []) :=
  C3_duplicate_skipped dupWorld [pcDwds] pageH.properties pageH [] [] (by rfl)

/-- On a lookup oracle that always fails, `Process` leaves the mapping
untouched on every path. -/
theorem dwdsProcess_lookup_error (lookup : String → Except String AudioInfo)
    (m : FieldMap) (c : ProcessorConfig)
    (hl : ∀ s, ∃ e, lookup s = Except.error e) :
    (dwdsProcess lookup m c).1 = m := by
  unfold dwdsProcess
  split
  · rfl
  · split
    · rfl
    · rename_i source heq
      split
      · rfl
      · obtain ⟨e, he⟩ := hl source
        rw [he]

/-- Claim C4 (corrected): the claim said a write-back happens only for a
step whose target field is non-empty, and in particular not when the
remote lookup failed. On the code, the write-back call is issued
unconditionally after every enabled registered step: here the lookup
fails with HTTP 500, the target field `Audio` stays absent from the
mapping, yet a write-back carrying the empty property for `Audio` is
issued — while the record still proceeds to the batch with no fatal
error, as the claim also said. -/
theorem C4_counterexample :
    (sync okWorld cfgC4 0 1).outcome = SyncResult.ok ∧
    (sync okWorld cfgC4 0 1).batch = [[("Word", "Haus")]] ∧
    Effect.writeBack "p1" [("Audio", UpdateProp.empty)] ∈
      (sync okWorld cfgC4 0 1).effects := by decide

/-- Claim C4 (amended): during per-record processing a write-back call is
issued after every enabled registered step regardless of the target
field's content, carrying the single target field with its current value
in the mapping (the empty string when absent); when the step's remote
lookup fails, the target field stays absent/unset, the mapping is
unchanged, and the record still proceeds to the insert batch with no
fatal error. -/
theorem C4_amended (w : SyncWorld) (pageProperties : TypedProps) (page : Page)
    (pc : ProcessorConfig) (batch : List FieldMap) (effs : List Effect)
    (hen : pc.enabled = true) (hname : pc.name = "dwds_audio")
    (hl : ∀ s, ∃ e, w.dwdsLookup s = Except.error e)
    (hcan : CanAddNotes w.canAddCall (ExtractPropertiesFromPage page) = Except.ok true) :
    processPage w [pc] pageProperties page batch effs =
      some (batch ++ [ExtractPropertiesFromPage page],
        effs ++ [Effect.transformInvoked page.id pc.name,
          Effect.writeBack page.id (updatePageParams
            [(pc.targetField, getD (ExtractPropertiesFromPage page) pc.targetField)]
            pageProperties)]) := by
  have hm := dwdsProcess_lookup_error w.dwdsLookup (ExtractPropertiesFromPage page) pc hl
  have hreg : processorRegistry.contains pc.name = true := by
    rw [hname]; decide
  unfold processPage
  rw [hcan]
  unfold runSteps runStep
  rw [hen, hreg]
  simp only [Bool.not_true, Bool.false_eq_true, if_false, hm]
  simp [runSteps]

theorem C4_witness :
    processPage okWorld [pcDwds] pageH.properties pageH [] [] =
      some ([ExtractPropertiesFromPage pageH],
        [Effect.transformInvoked pageH.id pcDwds.name,
         Effect.writeBack pageH.id (updatePageParams
           [(pcDwds.targetField, getD (ExtractPropertiesFromPage pageH) pcDwds.targetField)]
           pageH.properties)]) := by
  have h := C4_amended okWorld pageH.properties pageH pcDwds [] [] rfl rfl
    (fun _ => ⟨"HTTP status code: 500", rfl⟩) (by rfl)
  simpa using h

/-- Claim C5 (corrected): the claim counted "no deck/model name
configured" among the errors that terminate the process on the first
cycle. `isFatalError` matches only the three sentinel errors, and the
"no deck name provided" error of an empty deck name is a fresh
`fmt.Errorf` value: on the first cycle the process logs it and keeps
running. -/
theorem C5_counterexample :
    (sync okWorld cfgC5 0 1).outcome = SyncResult.err GoError.noDeckName ∧
    isFatalError GoError.noDeckName = false ∧
    StartFirstCycle okWorld cfgC5 0 1 = FirstCycleOutcome.continued 0 := by decide

/-- Claim C5 (amended): every error return aborts the cycle without
advancing the cursor; the auth-rejected, database-missing and
sink-unreachable sentinels are the fatal class terminating the process
on the first cycle, while a missing deck or model name is non-fatal —
on the first cycle too the process logs it and continues. -/
theorem C5_amended (w : SyncWorld) (cfg : Config) (t0 now : Int) (e : GoError)
    (h : (sync w cfg t0 now).outcome = SyncResult.err e) :
    (sync w cfg t0 now).lastSyncTime = t0 ∧
    (isFatalError e = true →
      StartFirstCycle w cfg t0 now = FirstCycleOutcome.terminated e) ∧
    (isFatalError e = false →
      StartFirstCycle w cfg t0 now = FirstCycleOutcome.continued t0) ∧
    isFatalError GoError.noDeckName = false ∧
    isFatalError GoError.noModelName = false ∧
    isFatalError GoError.ankiConnectFailed = true ∧
    isFatalError GoError.notionAuthFailed = true ∧
    isFatalError GoError.notionDBNotFound = true := by
  have hc := sync_cursor w cfg t0 now
  have hcur : (sync w cfg t0 now).lastSyncTime = t0 := by
    rw [hc, if_neg]
    rw [h]
    simp
  refine ⟨hcur, ?_, ?_, rfl, rfl, rfl, rfl, rfl⟩
  · intro hf
    unfold StartFirstCycle
    rw [h]
    simp [hf]
  · intro hf
    unfold StartFirstCycle
    rw [h]
    simp [hf, hcur]

theorem C5_witness :
    (sync okWorld cfgC5 0 1).lastSyncTime = 0 ∧
    (isFatalError GoError.noDeckName = true →
      StartFirstCycle okWorld cfgC5 0 1 =
        FirstCycleOutcome.terminated GoError.noDeckName) ∧
    (isFatalError GoError.noDeckName = false →
      StartFirstCycle okWorld cfgC5 0 1 = FirstCycleOutcome.continued 0) ∧
    isFatalError GoError.noDeckName = false ∧
    isFatalError GoError.noModelName = false ∧
    isFatalError GoError.ankiConnectFailed = true ∧
    isFatalError GoError.notionAuthFailed = true ∧
    isFatalError GoError.notionDBNotFound = true :=
  C5_amended okWorld cfgC5 0 1 GoError.noDeckName (by decide)

/-- A record whose title property has two rich-text elements. -/
def pageC6 : Page := ⟨"p6", 0, [("Word", DBProp.title ["foo", "bar"])]⟩

/-- Claim C6 (corrected): the claim said a title flattens to the
concatenated plain text of its elements. The code reads only the first
element: on a title with elements "foo" and "bar" the extractor yields
"foo", not the concatenation "foobar". -/
theorem C6_counterexample :
    getF (ExtractPropertiesFromPage pageC6) "Word" = some "foo" ∧
    ¬ getF (ExtractPropertiesFromPage pageC6) "Word" = some ("foo" ++ "bar") := by
  decide

/-- Claim C6 (amended): for a record whose property names are distinct,
each property appears in the extracted mapping exactly per
`flattenedValue`: a title flattens to its first element's plain text (a
non-empty title whose first element has empty text produces no entry at
all, not the placeholder); rich text to its non-empty plain texts joined
with ", "; select to the option name; multi-select to the non-empty
option names joined with ", "; URL to the URL string; absent/empty
select, URL, title list, rich-text and multi-select values to the "-"
placeholder; properties of other types are omitted. -/
theorem C6_amended (page : Page) (hnd : (page.properties.map Prod.fst).Nodup)
    (name : String) (prop : DBProp) (hmem : (name, prop) ∈ page.properties) :
    getF (ExtractPropertiesFromPage page) name = flattenedValue prop := by
  unfold ExtractPropertiesFromPage
  exact extractFold_mem name prop page.properties [] hnd rfl hmem

/-- A record with an empty-texted title and an empty select. -/
def pageC6w : Page := ⟨"p6w", 0, [("A", DBProp.title [""]), ("B", DBProp.select none)]⟩

theorem C6_witness :
    getF (ExtractPropertiesFromPage pageC6w) "A" = flattenedValue (DBProp.title [""]) :=
  C6_amended pageC6w (by decide) "A" (DBProp.title [""]) (by decide)

/-- A record last edited 101 hours before time zero. -/
def oldPage : Page := ⟨"old", -101 * hourNs, []⟩

/-- Claim C7 (corrected): the claim said the startup cursor lies far
enough in the past that the first query fetches every record regardless
of age. The cursor is initialised to startup minus 100 hours, and the
query filter is strict "after": a record last edited 101 hours before
startup exists in the database but is not fetched by the first cycle. -/
theorem C7_counterexample :
    oldPage ∈ [oldPage] ∧
    queryFilter [oldPage] (initialLastSyncTime 0) = [] := by decide

/-- Claim C7 (amended): at startup the cursor is initialised to 100 hours
before the startup time, so the first cycle's incremental query fetches
exactly the records last modified strictly within the 100 hours
preceding startup — not every record however old. -/
theorem C7_amended (startupTime : Int) (db : List Page) (p : Page) :
    p ∈ queryFilter db (initialLastSyncTime startupTime) ↔
      p ∈ db ∧ startupTime - 100 * hourNs < p.lastEditedTime := by
  simp [queryFilter, initialLastSyncTime, List.mem_filter]

/-- A step configuration whose source field name is empty. -/
def cfgC8 : ProcessorConfig := ⟨"dwds_audio", true, "Audio", ""⟩

/-- Claim C8 (corrected): the claim said any configuration whose source
field is absent from the mapping makes the step a no-op success. With an
empty configured source-field name, that name is absent from the empty
mapping, yet `Process` returns a configuration error, not success. -/
theorem C8_counterexample :
    getF [] cfgC8.sourceField = none ∧
    ¬ (dwdsProcess lookupFail [] cfgC8).2 = none := by decide

/-- Claim C8 (amended): provided the configured source and target field
names are non-empty, a source field absent from the mapping or mapping
to the empty string makes the step a no-op success that leaves the
mapping byte-for-byte unchanged (an empty configured source or target
field name instead returns an error, also leaving the mapping
unchanged); and on any invocation whatsoever the step writes at most the
configured target field, never removing or altering any other field. -/
theorem C8_amended (lookup : String → Except String AudioInfo) (m : FieldMap)
    (c : ProcessorConfig) :
    (c.sourceField ≠ "" → c.targetField ≠ "" →
      (getF m c.sourceField = none ∨ getF m c.sourceField = some "") →
      dwdsProcess lookup m c = (m, none)) ∧
    (∀ k, k ≠ c.targetField → getF (dwdsProcess lookup m c).1 k = getF m k) := by
  constructor
  · intro hs ht habs
    have hcond : (c.sourceField == "" || c.targetField == "") = false := by
      simp [hs, ht]
    unfold dwdsProcess
    rw [hcond]
    rcases habs with h | h
    · rw [h]
      simp
    · rw [h]
      simp
  · intro k hk
    unfold dwdsProcess
    split
    · rfl
    · split
      · rfl
      · rename_i source heq
        split
        · rfl
        · split
          · rfl
          · split
            · exact getF_setF_ne m c.targetField _ k hk
            · rfl

theorem C8_witness :
    dwdsProcess lookupFail [("Word", "")] pcDwds = ([("Word", "")], none) ∧
    getF (dwdsProcess lookupFail [("Word", "")] pcDwds).1 "Word" =
      getF [("Word", "")] "Word" :=
  ⟨(C8_amended lookupFail [("Word", "")] pcDwds).1 (by decide) (by decide) (by decide),
   (C8_amended lookupFail [("Word", "")] pcDwds).2 "Word" (by decide)⟩

theorem isPrefixOf_append (p a b : List Char) (h : p.isPrefixOf a = true) :
    p.isPrefixOf (a ++ b) = true := by
  rw [List.isPrefixOf_iff_prefix] at h ⊢
  exact h.trans (List.prefix_append a b)

theorem string_data_append (a b : String) : (a ++ b).data = a.data ++ b.data := rfl

/-- Every reference the resolution chain lets through is an absolute
http(s) URL: either it already started with "http", or the base URL
(itself starting with "https") or the "https:" scheme was prepended. -/
theorem resolveAudioRef_startsWith (raw url : String)
    (h : resolveAudioRef raw = some url) : goStartsWith url "http" = true := by
  unfold resolveAudioRef at h
  split at h
  · split at h
    · rw [Option.some_inj] at h
      subst h
      unfold goStartsWith
      rw [string_data_append]
      exact isPrefixOf_append _ _ _ (by decide)
    · split at h
      · rw [Option.some_inj] at h
        subst h
        unfold goStartsWith
        rw [string_data_append]
        exact isPrefixOf_append _ _ _ (by decide)
      · split at h
        · rw [Option.some_inj] at h
          subst h
          unfold goStartsWith
          rw [string_data_append, string_data_append]
          exact isPrefixOf_append _ _ _ (isPrefixOf_append _ _ _ (by decide))
        · exact absurd h (by simp)
  · rw [Option.some_inj] at h
    subst h
    rename_i hstart
    simpa using hstart

/-- Claim C9 (corrected): the claim said acceptance is "file extension is
one of .mp3/.ogg/.wav/.m4a/.aac, or path contains one of
audio/sound/pronunciation/media/mp3". The code substring-scans the whole
lowercased URL: "https://sound.example.org/a.txt" has extension ".txt"
and a path containing no keyword, so the claimed heuristic rejects it,
yet the code accepts it (the host contains "sound") and would write it
to the target field. -/
theorem C9_counterexample :
    cleanAudioURL "https://sound.example.org/a.txt" = "https://sound.example.org/a.txt" ∧
    claimIsAudioURL "https://sound.example.org/a.txt" = false := by decide

/-- Claim C9 (amended): a relative reference is resolved against the dwds
base URL, and a reference survives `cleanAudioURL` only when the
resulting absolute URL (it always starts with "http") satisfies the
code's heuristic `isAudioURL`: one of the extension substrings or one of
the keywords occurs anywhere in the lowercased URL — host and query
included, not merely as the file extension or within the path. Only such
a URL can be written to the target field. -/
theorem cleanAudioURL_none (raw : String) (hr : resolveAudioRef raw = none) :
    cleanAudioURL raw = "" := by
  unfold cleanAudioURL
  rw [hr]

theorem cleanAudioURL_some_true (raw url : String)
    (hr : resolveAudioRef raw = some url) (ha : isAudioURL url = true) :
    cleanAudioURL raw = url := by
  unfold cleanAudioURL
  rw [hr]
  show (if (!isAudioURL url) = true then "" else url) = url
  rw [ha]
  simp

theorem cleanAudioURL_some_false (raw url : String)
    (hr : resolveAudioRef raw = some url) (ha : isAudioURL url = false) :
    cleanAudioURL raw = "" := by
  unfold cleanAudioURL
  rw [hr]
  show (if (!isAudioURL url) = true then "" else url) = ""
  rw [ha]
  simp

theorem C9_amended (raw : String) (h : cleanAudioURL raw ≠ "") :
    goStartsWith (cleanAudioURL raw) "http" = true ∧
      isAudioURL (cleanAudioURL raw) = true := by
  rcases hr : resolveAudioRef raw with _ | url
  · exact absurd (cleanAudioURL_none raw hr) h
  · by_cases ha : isAudioURL url = true
    · rw [cleanAudioURL_some_true raw url hr ha]
      exact ⟨resolveAudioRef_startsWith raw url hr, ha⟩
    · rw [Bool.not_eq_true] at ha
      exact absurd (cleanAudioURL_some_false raw url hr ha) h

theorem C9_witness :
    goStartsWith (cleanAudioURL "/audio/haus.mp3") "http" = true ∧
      isAudioURL (cleanAudioURL "/audio/haus.mp3") = true :=
  C9_amended "/audio/haus.mp3" (by decide)

/-- Claim C10 (confirmed): an empty `source_field` or `target_field` in
the step configuration makes `Process` return a non-nil error with the
mapping untouched — a reported misconfiguration, not the silent no-op
success reserved for a source field absent or empty in the mapping. -/
theorem C10_empty_config_error (lookup : String → Except String AudioInfo)
    (m : FieldMap) (c : ProcessorConfig)
    (h : c.sourceField = "" ∨ c.targetField = "") :
    (dwdsProcess lookup m c).1 = m ∧ (dwdsProcess lookup m c).2 ≠ none := by
  have hcond : (c.sourceField == "" || c.targetField == "") = true := by
    rcases h with h | h <;> simp [h]
  unfold dwdsProcess
  rw [hcond]
  simp

/-- A step configuration whose target field name is empty. -/
def cfgC10 : ProcessorConfig := ⟨"dwds_audio", true, "", "Word"⟩

theorem C10_witness :
    (dwdsProcess lookupFail [("Word", "Haus")] cfgC10).1 = [("Word", "Haus")] ∧
    (dwdsProcess lookupFail [("Word", "Haus")] cfgC10).2 ≠ none :=
  C10_empty_config_error lookupFail [("Word", "Haus")] cfgC10 (Or.inr rfl)
